import Mathlib

/-!
Verification of the `zoneawareness` CoreDNS plugin (toredash/zoneawareness).

This file gives a shallow embedding of the plugin's core: the data model
(`Zone`, `Zoneawareness`, resource records, CIDR ranges), the per-response
reordering algorithm `ServeDNS` (zoneawareness.go), the CIDR membership test
`ipMatchesCIDRs`, the zone-identifier pattern check (setup.go's
`awsZoneIDPattern`), the IPv4 path of Go's `net.ParseCIDR`, and the `setup`
routine that merges IMDS/EC2 discovery with static Corefile configuration.

Machine-level conventions: IPv4 addresses are naturals below 2^32, IPv6
addresses naturals below 2^128; the three Prometheus instruments are modelled
by counters in a `Metrics` record (one unit per `Inc`/`Observe`, `Add n` adds
n); a Go nil-pointer dereference is modelled by `Option.none` as the result of
`ServeDNS`; external effects (IMDS, EC2, environment, Corefile) are inputs to
`setup`.
-/

/-- Character class `[a-z]` used by the zone-id pattern in setup.go:42. -/
def isLowerAZ (c : Char) : Bool :=
  decide (97 ≤ c.toNat) && decide (c.toNat ≤ 122)

/-- Character class `[0-9]` used by the zone-id pattern in setup.go:42. -/
def isDigit09 (c : Char) : Bool :=
  decide (48 ≤ c.toNat) && decide (c.toNat ≤ 57)

/-- An IP address as carried by a `net.IP` value: a family tag plus the
address as a natural number (below 2^32 for IPv4, 2^128 for IPv6). -/
structure IPAddr where
  isV6 : Bool
  val : Nat
deriving DecidableEq

/-- A parsed CIDR range (`*net.IPNet`): family, network address (already
masked, as Go's `ParseCIDR` returns `ip.Mask(m)`), and the mask length. -/
structure IPNet where
  isV6 : Bool
  network : Nat
  prefixLen : Nat
deriving DecidableEq

/-- The CIDR mask of `len` leading one bits in a `w`-bit word, as a natural
number: the numeric value of Go's `net.CIDRMask(len, w)`. -/
def cidrMask (w len : Nat) : Nat := 2 ^ w - 2 ^ (w - len)

/-- Go's `IP.To4`: an IPv4 address is returned as-is; a 16-byte address is
converted to 4 bytes exactly when its upper 96 bits are the v4-mapped pattern
`::ffff:0:0`; otherwise conversion fails (`nil`). -/
def IPAddr.to4 (a : IPAddr) : Option Nat :=
  if !a.isV6 then some a.val
  else if a.val / 2 ^ 32 = 0xffff then some (a.val % 2 ^ 32)
  else none

/-- Go's `(*net.IPNet).Contains`: normalise the argument with `To4`, reject a
length mismatch between the address and the network, and otherwise compare
the address and the network under the CIDR mask (Go does the comparison
byte-wise with `nn[i]&m[i] == ip[i]&m[i]`; on naturals below `2^w` this is
`Nat.land` with the mask value). -/
def IPNet.Contains (n : IPNet) (ip : IPAddr) : Bool :=
  match ip.to4 with
  | some x =>
    if n.isV6 then false
    else Nat.land n.network (cidrMask 32 n.prefixLen)
      == Nat.land x (cidrMask 32 n.prefixLen)
  | none =>
    if n.isV6 then
      Nat.land n.network (cidrMask 128 n.prefixLen)
        == Nat.land ip.val (cidrMask 128 n.prefixLen)
    else false

/-- A DNS resource record as the plugin sees it: an A record carrying an IPv4
address, an AAAA record carrying an IPv6 address, or any other record type
(CNAME, TXT, ...), distinguished by an opaque tag. -/
inductive RR where
  | a (ip : Nat)
  | aaaa (ip : Nat)
  | other (tag : Nat)
deriving DecidableEq

/-- extractRRIP (zoneawareness.go): the IP of an A or AAAA record, `nil`
(`none`) for every other record type. -/
def extractRRIP : RR → Option IPAddr
  | RR.a ip => some { isV6 := false, val := ip }
  | RR.aaaa ip => some { isV6 := true, val := ip }
  | RR.other _ => none

/-- ipMatchesCIDRs (zoneawareness.go): scan the CIDR list in order and return
true at the first range containing the address, false when the list is
exhausted. -/
def ipMatchesCIDRs (ip : IPAddr) (cidrs : List IPNet) : Bool :=
  match cidrs with
  | [] => false
  | cidr :: rest => if cidr.Contains ip then true else ipMatchesCIDRs ip rest

/-- Zone (zoneawareness.go): an ordered list of CIDR ranges. -/
structure Zone where
  CIDRs : List IPNet
deriving DecidableEq

/-- Zoneawareness (zoneawareness.go): the plugin value. The Go map
`map[string]*Zone` is modelled as a function returning `none` for absent
keys (a missing key yields the zero value `nil`, and a later `.CIDRs` field
access on it is a nil dereference). -/
structure Zoneawareness where
  Zones : String → Option Zone
  currentAvailabilityZoneId : String
  HasSynced : Bool

/-- State of the three Prometheus instruments of metrics.go, counted
abstractly: number of `Inc`/`Add` units on the two counters and number of
`Observe` calls on the latency histogram. -/
structure Metrics where
  reorderedQueriesCount : Nat
  reorderCount : Nat
  reorderLatencyObservations : Nat
deriving DecidableEq

/-- A DNS response as relevant to the plugin: its Rcode (0 = RcodeSuccess)
and its Answer section. -/
structure Msg where
  Rcode : Nat
  Answer : List RR
deriving DecidableEq

/-- The classification loop of ServeDNS (zoneawareness.go:238-246): one
left-to-right pass appending each record to `preferredAnswers` when
`ip != nil && ipMatchesCIDRs(ip, e.Zones[az].CIDRs)` and to `otherAnswers`
otherwise. Go's `&&` short-circuits, so the map lookup and the `.CIDRs`
field access are only evaluated for records with an extractable IP; `none`
models the nil-pointer panic of `.CIDRs` on a missing map entry. -/
def classifyAnswers (e : Zoneawareness) : List RR → Option (List RR × List RR)
  | [] => some ([], [])
  | rr :: rest =>
    match extractRRIP rr with
    | none =>
      match classifyAnswers e rest with
      | none => none
      | some (pref, other) => some (pref, rr :: other)
    | some ip =>
      match e.Zones e.currentAvailabilityZoneId with
      | none => none
      | some zone =>
        if ipMatchesCIDRs ip zone.CIDRs then
          match classifyAnswers e rest with
          | none => none
          | some (pref, other) => some (rr :: pref, other)
        else
          match classifyAnswers e rest with
          | none => none
          | some (pref, other) => some (pref, rr :: other)

/-- ServeDNS (zoneawareness.go:210-271), from the point where the upstream
response `pw.msg` is available: a non-success Rcode or an answer section of
at most one record is passed through untouched; otherwise the answers are
classified (timed, with one histogram observation recorded right after the
loop, before the empty-preferred check); if no preferred answer was found the
original message is returned, else a copy with `preferredAnswers ++
otherAnswers` is written and the two counters are bumped. The result pairs
the message handed to `writeFinalResponse` with the instrument state; `none`
models the nil-map-entry dereference inside the loop. -/
def Zoneawareness.ServeDNS (e : Zoneawareness) (m : Metrics) (msg : Msg) :
    Option (Msg × Metrics) :=
  if msg.Rcode ≠ 0 then some (msg, m)
  else if msg.Answer.length ≤ 1 then some (msg, m)
  else
    match classifyAnswers e msg.Answer with
    | none => none
    | some (preferredAnswers, otherAnswers) =>
      let m1 : Metrics :=
        { m with reorderLatencyObservations := m.reorderLatencyObservations + 1 }
      if preferredAnswers.length = 0 then some (msg, m1)
      else
        some ({ msg with Answer := preferredAnswers ++ otherAnswers },
          { m1 with
            reorderedQueriesCount := m1.reorderedQueriesCount + 1,
            reorderCount := m1.reorderCount + preferredAnswers.length })

/-- Classification predicate applied by the ServeDNS loop to a single
record: an IP was extracted and it matches one of the given CIDRs. -/
def isPreferred (cidrs : List IPNet) (rr : RR) : Bool :=
  match extractRRIP rr with
  | some ip => ipMatchesCIDRs ip cidrs
  | none => false

theorem classifyAnswers_eq_filter (e : Zoneawareness) (zone : Zone)
    (hz : e.Zones e.currentAvailabilityZoneId = some zone) (l : List RR) :
    classifyAnswers e l =
      some (l.filter (isPreferred zone.CIDRs),
            l.filter (fun rr => !(isPreferred zone.CIDRs rr))) := by
  induction l with
  | nil => simp [classifyAnswers]
  | cons rr rest ih =>
    cases hext : extractRRIP rr with
    | none =>
      simp [classifyAnswers, hext, ih, List.filter_cons, isPreferred]
    | some ip =>
      cases hm : ipMatchesCIDRs ip zone.CIDRs with
      | false =>
        simp [classifyAnswers, hext, hz, hm, ih, List.filter_cons, isPreferred]
      | true =>
        simp [classifyAnswers, hext, hz, hm, ih, List.filter_cons, isPreferred]

/-- Answer-list semantics of the reorder step of ServeDNS, as a pure
function of the current zone's CIDR table: identity for at most one answer,
identity when no answer is preferred, and otherwise the stable
preferred-first concatenation produced by the classification loop. The
correspondence with `Zoneawareness.ServeDNS` is proved in
`ServeDNS_answer_eq_reorderAnswers`. -/
def reorderAnswers (cidrs : List IPNet) (answers : List RR) : List RR :=
  if answers.length ≤ 1 then answers
  else
    let preferredAnswers := answers.filter (isPreferred cidrs)
    let otherAnswers := answers.filter (fun rr => !(isPreferred cidrs rr))
    if preferredAnswers.length = 0 then answers
    else preferredAnswers ++ otherAnswers

theorem ServeDNS_answer_eq_reorderAnswers (e : Zoneawareness) (m : Metrics)
    (msg : Msg) (zone : Zone)
    (hz : e.Zones e.currentAvailabilityZoneId = some zone)
    (hrc : msg.Rcode = 0) :
    ∃ mFinal, e.ServeDNS m msg =
      some ({ msg with Answer := reorderAnswers zone.CIDRs msg.Answer }, mFinal) := by
  obtain ⟨rc, ans⟩ := msg
  simp only [Msg.mk.injEq] at hrc ⊢
  subst hrc
  unfold Zoneawareness.ServeDNS reorderAnswers
  rw [classifyAnswers_eq_filter e zone hz]
  by_cases h1 : ans.length ≤ 1
  · exact ⟨m, by simp [h1]⟩
  · by_cases h2 : (ans.filter (isPreferred zone.CIDRs)).length = 0
    · exact ⟨{ m with reorderLatencyObservations := m.reorderLatencyObservations + 1 },
        by simp [h1, h2]⟩
    · refine ⟨Metrics.mk (m.reorderedQueriesCount + 1)
        (m.reorderCount + (ans.filter (isPreferred zone.CIDRs)).length)
        (m.reorderLatencyObservations + 1), ?_⟩
      simp [h1, h2]

theorem filter_self_of_filter (p : RR → Bool) (l : List RR) :
    (l.filter p).filter p = l.filter p := by
  rw [List.filter_eq_self]
  intro a ha
  exact (List.mem_filter.mp ha).2

theorem filter_not_of_filter (p : RR → Bool) (l : List RR) :
    (l.filter p).filter (fun rr => !(p rr)) = [] := by
  rw [List.filter_eq_nil_iff]
  intro a ha
  simp [(List.mem_filter.mp ha).2]

theorem filter_of_filter_not (p : RR → Bool) (l : List RR) :
    (l.filter (fun rr => !(p rr))).filter p = [] := by
  rw [List.filter_eq_nil_iff]
  intro a ha
  have := (List.mem_filter.mp ha).2
  simp only [Bool.not_eq_true'] at this
  simp [this]

theorem filter_not_self_of_filter_not (p : RR → Bool) (l : List RR) :
    (l.filter (fun rr => !(p rr))).filter (fun rr => !(p rr)) =
      l.filter (fun rr => !(p rr)) := by
  rw [List.filter_eq_self]
  intro a ha
  exact (List.mem_filter.mp ha).2

theorem length_filter_append_filter_not (p : RR → Bool) (l : List RR) :
    (l.filter p ++ l.filter (fun rr => !(p rr))).length = l.length :=
  (List.filter_append_perm p l).length_eq

/-- Model of a Go `context.Context` restricted to its deadline content; the
only aspect the Topology Discovery claims refer to. -/
structure Context where
  timeoutMs : Option Nat

/-- Go's `context.Background()`: no deadline. -/
def Context.background : Context := { timeoutMs := none }

/-- Go's `context.WithTimeout(parent, d)`: installs a deadline of `ms`
milliseconds. -/
def Context.withTimeout (_parent : Context) (ms : Nat) : Context :=
  { timeoutMs := some ms }

/-- Context used by getConfigFromIMDSv2 (setup.go:194-197):
`context.WithTimeout(context.Background(), 2*time.Second)`. -/
def imdsRequestContext : Context := Context.background.withTimeout 2000

/-- Context that setup passes to getSubnetsFromEC2Func (setup.go:65):
`context.Background()`, with no timeout attached. -/
def ec2InventoryContext : Context := Context.background

/-- Context on which getSubnetsFromEC2 issues `DescribeSubnets`
(setup.go:249,258): the context it received, forwarded unchanged. -/
def describeSubnetsContext : Context := ec2InventoryContext

/-- Tail of the zone-id pattern after the mandatory letters and region digit:
the regex fragment `(-[a-z]{3}[0-9])?-az[0-9]$` of setup.go:42. The two
alternatives have distinct lengths (4 without the optional group, 9 with it),
and inside the group the third character must be a letter while `-az[0-9]`
puts a digit there, so this case split is equivalent to the regex with
backtracking. -/
def matchAZTail : List Char → Bool
  | ['-', 'a', 'z', d] => isDigit09 d
  | ['-', l1, l2, l3, d1, '-', 'a', 'z', d2] =>
    isLowerAZ l1 && isLowerAZ l2 && isLowerAZ l3 && isDigit09 d1 && isDigit09 d2
  | _ => false

/-- awsZoneIDPattern.MatchString (setup.go:42), the anchored regex
`[a-z]{2,4}[0-9](-[a-z]{3}[0-9])?-az[0-9]` on a character list. Because the
letter and digit classes are disjoint, the greedy `[a-z]{2,4}` can only match
the maximal leading run of lowercase letters, which must have length 2 to 4
and be followed by a digit. -/
def awsZoneIDPatternMatchList (cs : List Char) : Bool :=
  let letters := cs.takeWhile isLowerAZ
  decide (2 ≤ letters.length) && decide (letters.length ≤ 4) &&
    (match cs.dropWhile isLowerAZ with
     | d :: tail => isDigit09 d && matchAZTail tail
     | [] => false)

/-- awsZoneIDPattern.MatchString on a string value. -/
def awsZoneIDPatternMatch (s : String) : Bool :=
  awsZoneIDPatternMatchList s.data

/-- Go's `net.dtoi`: read a decimal prefix, returning the value, the number
of characters consumed, and an ok flag; fails on an empty digit run and on
values reaching the overflow bound 0xFFFFFF. -/
def dtoiAux : List Char → Nat → Nat → Nat × Nat × Bool
  | [], n, i => if i = 0 then (0, 0, false) else (n, i, true)
  | c :: rest, n, i =>
    if isDigit09 c then
      let n1 := n * 10 + (c.toNat - 48)
      if 0xFFFFFF ≤ n1 then (0xFFFFFF, i, false)
      else dtoiAux rest n1 (i + 1)
    else if i = 0 then (0, 0, false) else (n, i, true)

/-- Entry point of `net.dtoi` on a character list. -/
def dtoi (s : List Char) : Nat × Nat × Bool := dtoiAux s 0 0

/-- One dotted-quad field of Go's `net.parseIPv4`: a decimal run of value at
most 255, with a leading zero forbidden on multi-digit fields; returns the
field value and the unconsumed remainder. -/
def parseIPv4Field (s : List Char) : Option (Nat × List Char) :=
  match dtoi s with
  | (n, c, ok) =>
    if ok && decide (n ≤ 0xFF) && !(decide (1 < c) && decide (s.head? = some '0'))
    then some (n, s.drop c)
    else none

/-- Go's `net.parseIPv4`: four dot-separated fields consuming the whole
input, assembled big-endian into the 32-bit address value. -/
def parseIPv4 (s : List Char) : Option Nat :=
  match parseIPv4Field s with
  | none => none
  | some (p0, s0) =>
    match s0 with
    | '.' :: s1 =>
      match parseIPv4Field s1 with
      | none => none
      | some (p1, s1r) =>
        match s1r with
        | '.' :: s2 =>
          match parseIPv4Field s2 with
          | none => none
          | some (p2, s2r) =>
            match s2r with
            | '.' :: s3 =>
              match parseIPv4Field s3 with
              | none => none
              | some (p3, s3r) =>
                if s3r = [] then
                  some (p0 * 2 ^ 24 + p1 * 2 ^ 16 + p2 * 2 ^ 8 + p3)
                else none
            | _ => none
        | _ => none
    | _ => none

/-- Position split at the first `/`, as `net.ParseCIDR` does with
`byteIndex(s, '/')`; `none` when no slash occurs. -/
def splitAtSlash : List Char → Option (List Char × List Char)
  | [] => none
  | c :: rest =>
    if c = '/' then some ([], rest)
    else
      match splitAtSlash rest with
      | none => none
      | some (a, b) => some (c :: a, b)

/-- Go's `net.ParseCIDR` restricted to IPv4 text: split at the first slash,
parse the address as a dotted quad, parse the mask length with `dtoi`
(requiring full consumption and a value of at most 32), and return the
network with the host bits already masked off, exactly as Go returns
`&IPNet{IP: ip.Mask(m), Mask: m}`. The IPv6 branch of the stdlib parser is
outside this model: IPv6 CIDR text maps to `none`. The repository code under
verification is parameterised over this function wherever it calls
`net.ParseCIDR`, so the restriction only affects the concrete witness
inputs, which are all IPv4. -/
def parseCIDRv4 (s : String) : Option IPNet :=
  match splitAtSlash s.data with
  | none => none
  | some (addr, maskText) =>
    match parseIPv4 addr with
    | none => none
    | some ip =>
      match dtoi maskText with
      | (n, i, ok) =>
        if ok && decide (i = maskText.length) && decide (n ≤ 32) then
          some { isV6 := false, network := Nat.land ip (cidrMask 32 n), prefixLen := n }
        else none

/-- An EC2 subnet as consumed by setup (`types.Subnet`): its id, its
optional IPv4 CIDR block pointer, and the `Ipv6CidrBlock` pointer of each
entry of its `Ipv6CidrBlockAssociationSet`. -/
structure Subnet where
  SubnetId : String
  CidrBlock : Option String
  Ipv6CidrBlockAssociationSet : List (Option String)

/-- Lazily-creating append of one CIDR to a zone of the registry
(setup.go:80-87, 99-106, 158-164): fetch the zone, create it empty if
absent, and append the range. -/
def zonesAdd (zones : String → Option Zone) (name : String) (cidr : IPNet) :
    String → Option Zone :=
  fun k =>
    if k = name then
      some { CIDRs := (match zones name with
                       | some zone => zone.CIDRs
                       | none => []) ++ [cidr] }
    else zones k

/-- Handling of one discovered CIDR text pointer (setup.go:74-89 for the
IPv4 block, repeated verbatim at 92-109 for each IPv6 association): skip a
nil or empty pointer, skip text the parser rejects, and otherwise append to
the current zone. -/
def processSubnetCidrText (parse : String → Option IPNet) (az : String)
    (zones : String → Option Zone) (ob : Option String) : String → Option Zone :=
  match ob with
  | some cidrStr =>
    if cidrStr ≠ "" then
      match parse cidrStr with
      | some cidr => zonesAdd zones az cidr
      | none => zones
    else zones
  | none => zones

/-- Handling of one subnet returned by DescribeSubnets (setup.go:72-110):
the IPv4 block first, then each IPv6 association in order. -/
def processSubnet (parse : String → Option IPNet) (az : String)
    (zones : String → Option Zone) (s : Subnet) : String → Option Zone :=
  let z1 := processSubnetCidrText parse az zones s.CidrBlock
  s.Ipv6CidrBlockAssociationSet.foldl (processSubnetCidrText parse az) z1

/-- Handling of one Corefile statement (setup.go:128-168): statements with
fewer than two arguments are ignored; a statement whose zone name differs
from the current zone is skipped entirely; the name is then validated
against the zone-id pattern; each remaining argument is parsed
independently, invalid CIDR text being skipped while valid siblings are
appended. -/
def processStatement (parse : String → Option IPNet) (az : String)
    (zones : String → Option Zone) (args : List String) : String → Option Zone :=
  if 2 ≤ args.length then
    match args with
    | [] => zones
    | zoneName :: cidrArgs =>
      if zoneName ≠ az then zones
      else if !awsZoneIDPatternMatch zoneName then zones
      else
        cidrArgs.foldl
          (fun zs cidrStr =>
            match parse cidrStr with
            | some cidr => zonesAdd zs zoneName cidr
            | none => zs)
          zones
  else zones

/-- External inputs consumed by one run of setup: the result of
getConfigFromIMDSv2Func, the result of getSubnetsFromEC2Func, the value of
the AWS_ZONE_ID environment variable, and the argument list of each
occurrence of the zoneawareness directive in the Corefile. -/
structure SetupInput where
  imdsResult : Except String (String × String)
  ec2Result : Except String (List Subnet)
  awsZoneIdEnv : String
  corefileArgs : List (List String)

/-- Zone identifier contributed by the IMDS branch of setup (setup.go:57-62):
the discovered id when the call succeeded with a nonempty id and region, and
the empty string otherwise. -/
def imdsZoneId (inp : SetupInput) : String :=
  match inp.imdsResult with
  | Except.error _ => ""
  | Except.ok (azId, region) => if azId ≠ "" ∧ region ≠ "" then azId else ""

/-- Current zone identifier after the two prioritized sources have run
(setup.go:57-120): IMDS discovery first; the AWS_ZONE_ID environment
variable is consulted only when discovery left the identifier empty, and
its value is taken only when it matches the zone-id pattern. -/
def setupZoneId (inp : SetupInput) : String :=
  if imdsZoneId inp = "" then
    if awsZoneIDPatternMatch inp.awsZoneIdEnv then inp.awsZoneIdEnv else ""
  else imdsZoneId inp

/-- Zone registry populated by the discovery half of setup (setup.go:56-112):
empty unless IMDS succeeded with nonempty id and region; when it did, a
failed DescribeSubnets leaves the registry empty (logged, not fatal) and a
successful one contributes every parsable CIDR of every returned subnet. -/
def discoveryZones (parse : String → Option IPNet) (inp : SetupInput) :
    String → Option Zone :=
  match inp.imdsResult with
  | Except.error _ => fun _ => none
  | Except.ok (azId, region) =>
    if azId ≠ "" ∧ region ≠ "" then
      match inp.ec2Result with
      | Except.error _ => fun _ => none
      | Except.ok subnets => subnets.foldl (processSubnet parse azId) (fun _ => none)
    else fun _ => none

/-- setup (setup.go:53-185), parameterised over the CIDR parser it hands
every piece of configuration text to: resolve the current zone identifier
(returning without installing anything when none was found, setup.go:122-125,
before the Corefile loop runs), merge static statements after discovery, and
install the plugin only when the registry holds the current zone with at
least one CIDR (setup.go:171-183), marking it synced. `none` models "plugin
NOT added". -/
def setup (parse : String → Option IPNet) (inp : SetupInput) :
    Option Zoneawareness :=
  let az := setupZoneId inp
  if az = "" then none
  else
    let zones := inp.corefileArgs.foldl (processStatement parse az)
      (discoveryZones parse inp)
    match zones az with
    | some currentZoneData =>
      if 0 < currentZoneData.CIDRs.length then
        some { Zones := zones, currentAvailabilityZoneId := az, HasSynced := true }
      else none
    | none => none

/-- The CIDR 10.0.0.0/24 of the spec's worked example (10*2^24 = 167772160). -/
def net10_0_0_0_24 : IPNet := { isV6 := false, network := 167772160, prefixLen := 24 }

/-- All instruments at zero. -/
def mZero : Metrics := { reorderedQueriesCount := 0, reorderCount := 0, reorderLatencyObservations := 0 }

/-- An installed plugin whose registry holds the current zone use2-az1 with
the single CIDR 10.0.0.0/24. -/
def ePlug : Zoneawareness :=
  { Zones := fun k => if k = "use2-az1" then some (Zone.mk [net10_0_0_0_24]) else none,
    currentAvailabilityZoneId := "use2-az1",
    HasSynced := true }

/-- A plugin value whose Zones map lacks its current zone identifier. -/
def eNoZone : Zoneawareness :=
  { Zones := fun _ => none, currentAvailabilityZoneId := "use2-az1", HasSynced := false }

/-- Successful response with answers 198.51.100.1, 198.51.100.2: none inside
10.0.0.0/24. -/
def msgNoMatch : Msg := { Rcode := 0, Answer := [RR.a 3325256705, RR.a 3325256706] }

/-- Successful response with answers 10.0.0.1, 192.168.1.1, 10.0.0.2 (the
worked example of the spec and of zoneawareness_test.go). -/
def msgExample : Msg := { Rcode := 0, Answer := [RR.a 167772161, RR.a 3232235777, RR.a 167772162] }

/-- The worked example after reordering: 10.0.0.1, 10.0.0.2, 192.168.1.1. -/
def msgExampleReordered : Msg := { Rcode := 0, Answer := [RR.a 167772161, RR.a 167772162, RR.a 3232235777] }

/-- Successful response with two answers from which no IP can be extracted. -/
def msgCnames : Msg := { Rcode := 0, Answer := [RR.other 0, RR.other 1] }

/-- Successful response with one A answer and one address-free answer. -/
def msgOneA : Msg := { Rcode := 0, Answer := [RR.a 167772161, RR.other 7] }

/-- C9: the CIDR Table membership test `ipMatchesCIDRs` is a total,
deterministic, side-effect-free boolean function (it is a Lean function into
Bool): it returns false on the empty table, on a nonempty table it returns
true at the first range containing the address and otherwise continues with
the remaining ranges in insertion order, and overall it returns true exactly
when some range of the table contains the address. -/
theorem C9_ipMatchesCIDRs_first_match :
    (∀ ip, ipMatchesCIDRs ip [] = false) ∧
    (∀ ip cidr rest, ipMatchesCIDRs ip (cidr :: rest) =
      (cidr.Contains ip || ipMatchesCIDRs ip rest)) ∧
    (∀ ip cidrs, ipMatchesCIDRs ip cidrs = true ↔
      ∃ cidr ∈ cidrs, cidr.Contains ip = true) := by
  refine ⟨fun ip => rfl, fun ip cidr rest => ?_, fun ip cidrs => ?_⟩
  · cases h : cidr.Contains ip <;> simp [ipMatchesCIDRs, h]
  · induction cidrs with
    | nil => simp [ipMatchesCIDRs]
    | cons c rest ih =>
      cases h : c.Contains ip <;> simp [ipMatchesCIDRs, h, ih]

/-- C6: a response whose Rcode is not RcodeSuccess is passed through
untouched by ServeDNS — same message, no classification, no instrument
update, and no failure of the engine itself (the result is `some`, never the
dereference `none`). -/
theorem C6_upstream_failure_passthrough (e : Zoneawareness) (m : Metrics)
    (msg : Msg) (h : msg.Rcode ≠ 0) :
    e.ServeDNS m msg = some (msg, m) := by
  unfold Zoneawareness.ServeDNS
  simp [h]

theorem C6_upstream_failure_passthrough_witness :
    (Msg.mk 2 [RR.a 167772161, RR.a 167772162]).Rcode ≠ 0 ∧
    Zoneawareness.ServeDNS ePlug mZero (Msg.mk 2 [RR.a 167772161, RR.a 167772162]) =
      some (Msg.mk 2 [RR.a 167772161, RR.a 167772162], mZero) :=
  ⟨by decide,
   C6_upstream_failure_passthrough ePlug mZero
     (Msg.mk 2 [RR.a 167772161, RR.a 167772162]) (by decide)⟩

/-- C1 fails on the code: for a successful response with two answers and
zero preferred records (zone table 10.0.0.0/24, answers 198.51.100.1 and
198.51.100.2), ServeDNS returns the answers unchanged and leaves both
counters at zero, but it does record one observation into the latency
histogram — `reorderLatency.Observe` runs right after the classification
loop (zoneawareness.go:250), before the empty-preferred check
(zoneawareness.go:253). -/
theorem C1_zero_preferred_counterexample :
    Zoneawareness.ServeDNS ePlug mZero msgNoMatch =
      some (msgNoMatch, Metrics.mk 0 0 1) ∧
    mZero.reorderLatencyObservations = 0 ∧
    Zoneawareness.ServeDNS ePlug mZero msgNoMatch ≠ some (msgNoMatch, mZero) := by
  decide

/-- C1 amended: for every successful response with two or more answers, a
present current-zone table, and no answer classified preferred, ServeDNS
returns the message unchanged and increments neither counter, but records
exactly one observation into the latency histogram. -/
theorem C1_zero_preferred_amended (e : Zoneawareness) (m : Metrics) (msg : Msg)
    (zone : Zone) (hz : e.Zones e.currentAvailabilityZoneId = some zone)
    (hrc : msg.Rcode = 0) (hlen : 2 ≤ msg.Answer.length)
    (hnone : ∀ rr ∈ msg.Answer, isPreferred zone.CIDRs rr = false) :
    e.ServeDNS m msg = some (msg,
      { m with reorderLatencyObservations := m.reorderLatencyObservations + 1 }) := by
  unfold Zoneawareness.ServeDNS
  rw [classifyAnswers_eq_filter e zone hz]
  have hpf : msg.Answer.filter (isPreferred zone.CIDRs) = [] := by
    rw [List.filter_eq_nil_iff]
    intro a ha
    simp [hnone a ha]
  have h1 : ¬ msg.Answer.length ≤ 1 := by omega
  simp [hrc, h1, hpf]

theorem C1_zero_preferred_amended_witness :
    ePlug.Zones ePlug.currentAvailabilityZoneId = some (Zone.mk [net10_0_0_0_24]) ∧
    msgNoMatch.Rcode = 0 ∧ 2 ≤ msgNoMatch.Answer.length ∧
    (∀ rr ∈ msgNoMatch.Answer, isPreferred (Zone.mk [net10_0_0_0_24]).CIDRs rr = false) ∧
    Zoneawareness.ServeDNS ePlug mZero msgNoMatch = some (msgNoMatch,
      { mZero with reorderLatencyObservations := mZero.reorderLatencyObservations + 1 }) :=
  ⟨by decide, rfl, by decide, by decide,
   C1_zero_preferred_amended ePlug mZero msgNoMatch (Zone.mk [net10_0_0_0_24])
     (by decide) rfl (by decide) (by decide)⟩

/-- C2 fails on the code: the claim that both Topology Discovery
sub-operations run under a bounded timeout is refuted by the context
plumbing — setup invokes getSubnetsFromEC2Func on `context.Background()`
(setup.go:65), which carries no deadline, and getSubnetsFromEC2 forwards
that context unchanged to DescribeSubnets. -/
theorem C2_discovery_timeouts_counterexample :
    ¬ (imdsRequestContext.timeoutMs.isSome = true ∧
       describeSubnetsContext.timeoutMs.isSome = true) := by
  decide

/-- C2 amended: only the IMDS identity lookup runs under a bounded timeout
(2 seconds, setup.go:194-196); the EC2 inventory lookup is invoked on
`context.Background()` with no timeout, so it is not bounded by any explicit
deadline. -/
theorem C2_discovery_timeouts_amended :
    imdsRequestContext.timeoutMs = some 2000 ∧
    ec2InventoryContext.timeoutMs = none ∧
    describeSubnetsContext.timeoutMs = none := by
  decide

theorem reorderAnswers_eq_of_pref_ne_nil (cidrs : List IPNet) (l : List RR)
    (hpref : l.filter (isPreferred cidrs) ≠ []) :
    reorderAnswers cidrs l =
      l.filter (isPreferred cidrs) ++ l.filter (fun rr => !(isPreferred cidrs rr)) := by
  unfold reorderAnswers
  by_cases h1 : l.length ≤ 1
  · cases l with
    | nil => simp at hpref
    | cons a rest =>
      have hr : rest = [] := by
        cases rest with
        | nil => rfl
        | cons b t => simp at h1
      subst hr
      have hpa : isPreferred cidrs a = true := by
        cases h : isPreferred cidrs a with
        | true => rfl
        | false => simp [List.filter_cons, h] at hpref
      simp [h1, List.filter_cons, hpa]
  · by_cases h2 : (l.filter (isPreferred cidrs)).length = 0
    · exact absurd (List.length_eq_zero.mp h2) hpref
    · simp [h1, h2]

/-- C3: for every successful response with a present current-zone table and
at least one preferred answer, ServeDNS succeeds and returns the preferred
answers followed by the others: the output is the stable partition
(preferred entries are exactly the filter of the input by the classification
predicate, in input order; likewise the others), hence a permutation of the
input in which every preferred entry precedes every non-preferred entry, and
records without an extractable address sit in the non-preferred filter. -/
theorem C3_stable_partition (e : Zoneawareness) (m : Metrics) (msg : Msg)
    (zone : Zone) (hz : e.Zones e.currentAvailabilityZoneId = some zone)
    (hrc : msg.Rcode = 0)
    (hpref : msg.Answer.filter (isPreferred zone.CIDRs) ≠ []) :
    ∃ msgOut mOut, e.ServeDNS m msg = some (msgOut, mOut) ∧
      msgOut.Answer =
        msg.Answer.filter (isPreferred zone.CIDRs) ++
          msg.Answer.filter (fun rr => !(isPreferred zone.CIDRs rr)) ∧
      msgOut.Answer.Perm msg.Answer ∧
      (∀ rr ∈ msg.Answer.filter (isPreferred zone.CIDRs),
        isPreferred zone.CIDRs rr = true) ∧
      (∀ rr ∈ msg.Answer.filter (fun rr => !(isPreferred zone.CIDRs rr)),
        isPreferred zone.CIDRs rr = false) := by
  obtain ⟨mFinal, hserve⟩ := ServeDNS_answer_eq_reorderAnswers e m msg zone hz hrc
  have hre := reorderAnswers_eq_of_pref_ne_nil zone.CIDRs msg.Answer hpref
  refine ⟨_, mFinal, hserve, ?_, ?_, ?_, ?_⟩
  · simpa using hre
  · simp only [hre]
    exact List.filter_append_perm (isPreferred zone.CIDRs) msg.Answer
  · intro rr hrr
    exact (List.mem_filter.mp hrr).2
  · intro rr hrr
    have := (List.mem_filter.mp hrr).2
    simpa using this

theorem C3_stable_partition_witness :
    msgExample.Rcode = 0 ∧
    msgExample.Answer.filter (isPreferred (Zone.mk [net10_0_0_0_24]).CIDRs) ≠ [] ∧
    (∃ msgOut mOut, Zoneawareness.ServeDNS ePlug mZero msgExample = some (msgOut, mOut) ∧
      msgOut.Answer =
        msgExample.Answer.filter (isPreferred (Zone.mk [net10_0_0_0_24]).CIDRs) ++
          msgExample.Answer.filter
            (fun rr => !(isPreferred (Zone.mk [net10_0_0_0_24]).CIDRs rr)) ∧
      msgOut.Answer.Perm msgExample.Answer ∧
      (∀ rr ∈ msgExample.Answer.filter (isPreferred (Zone.mk [net10_0_0_0_24]).CIDRs),
        isPreferred (Zone.mk [net10_0_0_0_24]).CIDRs rr = true) ∧
      (∀ rr ∈ msgExample.Answer.filter
          (fun rr => !(isPreferred (Zone.mk [net10_0_0_0_24]).CIDRs rr)),
        isPreferred (Zone.mk [net10_0_0_0_24]).CIDRs rr = false)) :=
  ⟨rfl, by decide,
   C3_stable_partition ePlug mZero msgExample (Zone.mk [net10_0_0_0_24])
     (by decide) rfl (by decide)⟩

/-- C4: on every successful response with two or more answers, a present
current-zone table, and at least one preferred answer, ServeDNS performs
exactly the three instrument updates — requests counter plus one, records
counter plus the number of preferred answers, exactly one latency histogram
observation — together with the preferred-first rewrite of the answers; in
particular, with current-zone CIDR 10.0.0.0/24 and answers
[10.0.0.1, 192.168.1.1, 10.0.0.2] the result is
[10.0.0.1, 10.0.0.2, 192.168.1.1] with the counters increased by 1 and 2 and
one histogram observation. -/
theorem C4_metrics_on_reorder :
    (∀ e : Zoneawareness, ∀ m msg zone, e.Zones e.currentAvailabilityZoneId = some zone →
      msg.Rcode = 0 → 2 ≤ msg.Answer.length →
      msg.Answer.filter (isPreferred zone.CIDRs) ≠ [] →
      e.ServeDNS m msg = some
        ({ msg with Answer := msg.Answer.filter (isPreferred zone.CIDRs) ++
            msg.Answer.filter (fun rr => !(isPreferred zone.CIDRs rr)) },
          Metrics.mk (m.reorderedQueriesCount + 1)
            (m.reorderCount + (msg.Answer.filter (isPreferred zone.CIDRs)).length)
            (m.reorderLatencyObservations + 1))) ∧
    Zoneawareness.ServeDNS ePlug mZero msgExample =
      some (msgExampleReordered, Metrics.mk 1 2 1) := by
  constructor
  · intro e m msg zone hz hrc hlen hpref
    unfold Zoneawareness.ServeDNS
    rw [classifyAnswers_eq_filter e zone hz]
    have h1 : ¬ msg.Answer.length ≤ 1 := by omega
    have h2 : ¬ (msg.Answer.filter (isPreferred zone.CIDRs)).length = 0 := by
      intro h
      exact hpref (List.length_eq_zero.mp h)
    simp [hrc, h1, h2]
  · decide

theorem C4_metrics_on_reorder_witness :
    ePlug.Zones ePlug.currentAvailabilityZoneId = some (Zone.mk [net10_0_0_0_24]) ∧
    msgExample.Rcode = 0 ∧ 2 ≤ msgExample.Answer.length ∧
    msgExample.Answer.filter (isPreferred (Zone.mk [net10_0_0_0_24]).CIDRs) ≠ [] ∧
    Zoneawareness.ServeDNS ePlug mZero msgExample = some
      (Msg.mk msgExample.Rcode
          (msgExample.Answer.filter (isPreferred (Zone.mk [net10_0_0_0_24]).CIDRs) ++
            msgExample.Answer.filter (fun rr => !(isPreferred (Zone.mk [net10_0_0_0_24]).CIDRs rr))),
        Metrics.mk (mZero.reorderedQueriesCount + 1)
          (mZero.reorderCount +
            (msgExample.Answer.filter (isPreferred (Zone.mk [net10_0_0_0_24]).CIDRs)).length)
          (mZero.reorderLatencyObservations + 1)) :=
  ⟨by decide, rfl, by decide, by decide,
   C4_metrics_on_reorder.1 ePlug mZero msgExample (Zone.mk [net10_0_0_0_24])
     (by decide) rfl (by decide) (by decide)⟩

/-- C5: the reorder step is idempotent. The first conjunct ties the pure
answer-list semantics `reorderAnswers` to ServeDNS (whenever the current
zone's table is present and the response is successful, the returned answers
are `reorderAnswers` of the input answers); the second proves that applying
`reorderAnswers` twice yields the same list as applying it once, for every
CIDR table and every answer list. -/
theorem C5_reorder_idempotent :
    (∀ e : Zoneawareness, ∀ m msg zone, e.Zones e.currentAvailabilityZoneId = some zone →
      msg.Rcode = 0 →
      ∃ mFinal, e.ServeDNS m msg =
        some ({ msg with Answer := reorderAnswers zone.CIDRs msg.Answer }, mFinal)) ∧
    (∀ cidrs answers, reorderAnswers cidrs (reorderAnswers cidrs answers) =
      reorderAnswers cidrs answers) := by
  constructor
  · exact fun e m msg zone hz hrc => ServeDNS_answer_eq_reorderAnswers e m msg zone hz hrc
  · intro cidrs answers
    by_cases h1 : answers.length ≤ 1
    · have hid : reorderAnswers cidrs answers = answers := by
        unfold reorderAnswers
        simp [h1]
      rw [hid]
      exact hid
    · by_cases h2 : (answers.filter (isPreferred cidrs)).length = 0
      · have hid : reorderAnswers cidrs answers = answers := by
          unfold reorderAnswers
          simp [h1, h2]
        rw [hid]
        exact hid
      · have hnn : answers.filter (isPreferred cidrs) ≠ [] := by
          intro h
          exact h2 (by simp [h])
        have hr := reorderAnswers_eq_of_pref_ne_nil cidrs answers hnn
        rw [hr]
        have hfp : (answers.filter (isPreferred cidrs) ++
            answers.filter (fun rr => !(isPreferred cidrs rr))).filter (isPreferred cidrs) =
            answers.filter (isPreferred cidrs) := by
          rw [List.filter_append, filter_self_of_filter, filter_of_filter_not,
            List.append_nil]
        have hnn2 : (answers.filter (isPreferred cidrs) ++
            answers.filter (fun rr => !(isPreferred cidrs rr))).filter (isPreferred cidrs) ≠ [] := by
          rw [hfp]
          exact hnn
        have hfo : (answers.filter (isPreferred cidrs) ++
            answers.filter (fun rr => !(isPreferred cidrs rr))).filter
              (fun rr => !(isPreferred cidrs rr)) =
            answers.filter (fun rr => !(isPreferred cidrs rr)) := by
          rw [List.filter_append, filter_not_of_filter, filter_not_self_of_filter_not,
            List.nil_append]
        rw [reorderAnswers_eq_of_pref_ne_nil cidrs _ hnn2, hfp, hfo]

theorem C5_reorder_idempotent_witness :
    ePlug.Zones ePlug.currentAvailabilityZoneId = some (Zone.mk [net10_0_0_0_24]) ∧
    msgExample.Rcode = 0 ∧
    (∃ mFinal, Zoneawareness.ServeDNS ePlug mZero msgExample =
      some ({ msgExample with
        Answer := reorderAnswers (Zone.mk [net10_0_0_0_24]).CIDRs msgExample.Answer }, mFinal)) :=
  ⟨by decide, rfl,
   C5_reorder_idempotent.1 ePlug mZero msgExample (Zone.mk [net10_0_0_0_24]) (by decide) rfl⟩

/-- SetupInput in which IMDS succeeds; the environment variable holds a
valid-looking zone id that must be ignored. -/
def inpImds : SetupInput :=
  { imdsResult := Except.ok ("use1-az1", "us-east-1"),
    ec2Result := Except.error "ec2 unavailable",
    awsZoneIdEnv := "usw2-az9",
    corefileArgs := [] }

/-- SetupInput in which IMDS fails and the environment variable holds a
pattern-valid zone id. -/
def inpEnvOnly : SetupInput :=
  { imdsResult := Except.error "no imds",
    ec2Result := Except.error "ec2 unavailable",
    awsZoneIdEnv := "usw2-az2",
    corefileArgs := [] }

/-- SetupInput in which IMDS fails and the environment variable fails the
zone-id pattern, so no source yields an identifier. -/
def inpInactive : SetupInput :=
  { imdsResult := Except.error "no imds",
    ec2Result := Except.error "ec2 unavailable",
    awsZoneIdEnv := "not-a-zone",
    corefileArgs := [["use1-az1", "10.0.0.0/24"]] }

/-- SetupInput under which setup installs the plugin: IMDS succeeds, EC2
fails (non-fatal), and the Corefile declares one CIDR for the current zone. -/
def inpInstall : SetupInput :=
  { imdsResult := Except.ok ("use1-az1", "us-east-1"),
    ec2Result := Except.error "ec2 unavailable",
    awsZoneIdEnv := "",
    corefileArgs := [["use1-az1", "10.0.0.0/24"]] }

/-- C7: the current zone identifier is resolved at most once during setup
with discovery taking priority — when IMDS yields a nonempty id and region
that id is used regardless of the environment; the environment variable is
consulted only when discovery yields nothing, and only a pattern-matching
value is accepted; and when the resolved identifier is empty, setup installs
nothing (the engine never activates). -/
theorem C7_zone_id_priority :
    (∀ inp azId region, inp.imdsResult = Except.ok (azId, region) →
      azId ≠ "" → region ≠ "" → setupZoneId inp = azId) ∧
    (∀ inp, (∀ azId region, inp.imdsResult = Except.ok (azId, region) →
        azId = "" ∨ region = "") →
      setupZoneId inp =
        if awsZoneIDPatternMatch inp.awsZoneIdEnv then inp.awsZoneIdEnv else "") ∧
    (∀ parse inp, setupZoneId inp = "" → setup parse inp = none) := by
  refine ⟨?_, ?_, ?_⟩
  · intro inp azId region him hne hr
    unfold setupZoneId imdsZoneId
    rw [him]
    simp [hne, hr]
  · intro inp hnothing
    unfold setupZoneId imdsZoneId
    cases h : inp.imdsResult with
    | error e => simp
    | ok pr =>
      obtain ⟨azId, region⟩ := pr
      rcases hnothing azId region h with h1 | h1 <;> simp [h1]
  · intro parse inp h0
    unfold setup
    simp [h0]

theorem C7_zone_id_priority_witness :
    inpImds.imdsResult = Except.ok ("use1-az1", "us-east-1") ∧
    setupZoneId inpImds = "use1-az1" ∧
    setupZoneId inpEnvOnly =
      (if awsZoneIDPatternMatch inpEnvOnly.awsZoneIdEnv then inpEnvOnly.awsZoneIdEnv else "") ∧
    setupZoneId inpInactive = "" ∧
    setup parseCIDRv4 inpInactive = none :=
  ⟨rfl,
   C7_zone_id_priority.1 inpImds "use1-az1" "us-east-1" rfl (by decide) (by decide),
   C7_zone_id_priority.2.1 inpEnvOnly (by intro azId region h; simp [inpEnvOnly] at h),
   by decide,
   C7_zone_id_priority.2.2 parseCIDRv4 inpInactive (by decide)⟩

/-- View of a registry as the CIDR list it holds for a key: the empty list
both for an absent zone and for a present-but-empty zone. -/
def zoneCIDRsAt (zones : String → Option Zone) (k : String) : List IPNet :=
  match zones k with
  | some zone => zone.CIDRs
  | none => []

theorem foldl_zonesAdd_filterMap (parse : String → Option IPNet) (name : String)
    (cidrArgs : List String) (zones : String → Option Zone) :
    zoneCIDRsAt (cidrArgs.foldl (fun zs cidrStr =>
      match parse cidrStr with
      | some cidr => zonesAdd zs name cidr
      | none => zs) zones) name =
    zoneCIDRsAt zones name ++ cidrArgs.filterMap parse := by
  induction cidrArgs generalizing zones with
  | nil => simp
  | cons c rest ih =>
    rw [List.foldl_cons]
    cases hp : parse c with
    | none => simp [hp, ih, List.filterMap_cons]
    | some cidr =>
      simp only [hp]
      rw [ih]
      have hadd : zoneCIDRsAt (zonesAdd zones name cidr) name =
          zoneCIDRsAt zones name ++ [cidr] := by
        unfold zoneCIDRsAt zonesAdd
        simp only [if_pos rfl]
        cases zones name <;> simp
      rw [hadd, List.filterMap_cons, hp, List.append_assoc]
      rfl

/-- C8: a Corefile statement naming a zone other than the current one leaves
the whole registry unchanged (zero ranges contributed); and a statement for
the current (pattern-valid) zone contributes to the current zone's table
exactly the arguments the CIDR parser accepts, in order — a malformed
argument is skipped while its valid siblings are still appended. -/
theorem C8_statement_merge :
    (∀ parse az zones zoneName cidrArgs, zoneName ≠ az →
      processStatement parse az zones (zoneName :: cidrArgs) = zones) ∧
    (∀ parse az zones cidrArgs, cidrArgs ≠ [] → awsZoneIDPatternMatch az = true →
      zoneCIDRsAt (processStatement parse az zones (az :: cidrArgs)) az =
        zoneCIDRsAt zones az ++ cidrArgs.filterMap parse) := by
  constructor
  · intro parse az zones zoneName cidrArgs hne
    unfold processStatement
    by_cases hlen : 2 ≤ (zoneName :: cidrArgs).length
    · rw [if_pos hlen]
      simp [hne]
    · rw [if_neg hlen]
  · intro parse az zones cidrArgs hne hpat
    have hlen : 2 ≤ (az :: cidrArgs).length := by
      cases cidrArgs with
      | nil => exact absurd rfl hne
      | cons c t => simp
    unfold processStatement
    simp only [hlen, if_true, hpat]
    simp
    exact foldl_zonesAdd_filterMap parse az cidrArgs zones

theorem C8_statement_merge_witness :
    ("usw2-az2" : String) ≠ "use1-az1" ∧
    processStatement parseCIDRv4 "use1-az1" (fun _ => none)
      ("usw2-az2" :: ["192.168.1.0/24"]) = (fun _ => none) ∧
    (["192.168.1.0/24", "10.0.0.0/33", "172.16.0.0/16"] : List String) ≠ [] ∧
    awsZoneIDPatternMatch "use1-az1" = true ∧
    zoneCIDRsAt (processStatement parseCIDRv4 "use1-az1" (fun _ => none)
        ("use1-az1" :: ["192.168.1.0/24", "10.0.0.0/33", "172.16.0.0/16"])) "use1-az1" =
      zoneCIDRsAt (fun _ => none) "use1-az1" ++
        (["192.168.1.0/24", "10.0.0.0/33", "172.16.0.0/16"] : List String).filterMap parseCIDRv4 ∧
    (["192.168.1.0/24", "10.0.0.0/33", "172.16.0.0/16"] : List String).filterMap parseCIDRv4 =
      [IPNet.mk false 3232235776 24, IPNet.mk false 2886729728 16] :=
  ⟨by decide,
   C8_statement_merge.1 parseCIDRv4 "use1-az1" (fun _ => none) "usw2-az2"
     ["192.168.1.0/24"] (by decide),
   by decide, by decide,
   C8_statement_merge.2 parseCIDRv4 "use1-az1" (fun _ => none)
     ["192.168.1.0/24", "10.0.0.0/33", "172.16.0.0/16"] (by decide) (by decide),
   by decide⟩

theorem classifyAnswers_none_of_no_zone (e : Zoneawareness)
    (hz : e.Zones e.currentAvailabilityZoneId = none) (l : List RR)
    (hex : ∃ rr ∈ l, (extractRRIP rr).isSome = true) :
    classifyAnswers e l = none := by
  induction l with
  | nil => simp at hex
  | cons rr rest ih =>
    cases hext : extractRRIP rr with
    | some ip => simp [classifyAnswers, hext, hz]
    | none =>
      have hex2 : ∃ r ∈ rest, (extractRRIP r).isSome = true := by
        obtain ⟨r, hr, hs⟩ := hex
        rcases List.mem_cons.mp hr with heq | hmem
        · subst heq
          rw [hext] at hs
          cases hs
        · exact ⟨r, hmem, hs⟩
      simp [classifyAnswers, hext, ih hex2]

/-- C10 fails on the code in one corner: with a Zones map lacking the
current identifier, a successful response with two or more answers does NOT
always dereference the missing entry — Go's `&&` short-circuits, so when no
answer carries an extractable address the `.CIDRs` access is never
evaluated. Here `eNoZone` lacks its current zone, `msgCnames` is successful
with two address-free answers, and ServeDNS completes without the
dereference (the result is not `none`). -/
theorem C10_missing_zone_counterexample :
    eNoZone.Zones eNoZone.currentAvailabilityZoneId = none ∧
    msgCnames.Rcode = 0 ∧ 2 ≤ msgCnames.Answer.length ∧
    Zoneawareness.ServeDNS eNoZone mZero msgCnames ≠ none := by
  decide

/-- C10 amended: setup installs the plugin only with the current zone
present in the registry and holding at least one CIDR; under that
precondition the lookup in ServeDNS always succeeds and the nil-dereference
branch is unreachable (the result is always `some`); and for a plugin value
whose Zones map lacks the current identifier, a successful response with two
or more answers of which at least one carries an extractable address makes
ServeDNS dereference the missing entry (`none`). -/
theorem C10_zone_lookup_amended :
    (∀ parse inp e, setup parse inp = some e →
      ∃ zone, e.Zones e.currentAvailabilityZoneId = some zone ∧ zone.CIDRs ≠ []) ∧
    (∀ e : Zoneawareness, ∀ m msg zone, e.Zones e.currentAvailabilityZoneId = some zone →
      (e.ServeDNS m msg).isSome = true) ∧
    (∀ e : Zoneawareness, ∀ m msg, e.Zones e.currentAvailabilityZoneId = none →
      msg.Rcode = 0 → 2 ≤ msg.Answer.length →
      (∃ rr ∈ msg.Answer, (extractRRIP rr).isSome = true) →
      e.ServeDNS m msg = none) := by
  refine ⟨?_, ?_, ?_⟩
  · intro parse inp e hsetup
    unfold setup at hsetup
    by_cases h0 : setupZoneId inp = ""
    · rw [if_pos h0] at hsetup
      cases hsetup
    · rw [if_neg h0] at hsetup
      simp only [] at hsetup
      rcases hmz : (inp.corefileArgs.foldl (processStatement parse (setupZoneId inp))
          (discoveryZones parse inp)) (setupZoneId inp) with _ | data
      · rw [hmz] at hsetup
        cases hsetup
      · rw [hmz] at hsetup
        simp only [] at hsetup
        by_cases hlen : 0 < data.CIDRs.length
        · rw [if_pos hlen] at hsetup
          injection hsetup with he
          refine ⟨data, ?_, ?_⟩
          · rw [← he]
            exact hmz
          · intro hnil
            rw [hnil] at hlen
            simp at hlen
        · rw [if_neg hlen] at hsetup
          cases hsetup
  · intro e m msg zone hz
    unfold Zoneawareness.ServeDNS
    by_cases hrc : msg.Rcode ≠ 0
    · simp [hrc]
    · by_cases h1 : msg.Answer.length ≤ 1
      · simp [hrc, h1]
      · rw [classifyAnswers_eq_filter e zone hz]
        by_cases h2 : (msg.Answer.filter (isPreferred zone.CIDRs)).length = 0
        · simp [hrc, h1, h2]
        · simp [hrc, h1, h2]
  · intro e m msg hz hrc hlen hex
    unfold Zoneawareness.ServeDNS
    have h1 : ¬ msg.Answer.length ≤ 1 := by omega
    rw [classifyAnswers_none_of_no_zone e hz msg.Answer hex]
    simp [hrc, h1]

/-- Registry produced by the setup run on `inpInstall`, spelled as setup
builds it. -/
def zonesInstall : String → Option Zone :=
  inpInstall.corefileArgs.foldl (processStatement parseCIDRv4 (setupZoneId inpInstall))
    (discoveryZones parseCIDRv4 inpInstall)

/-- The plugin value that setup installs on `inpInstall`. -/
def eInstall : Zoneawareness :=
  { Zones := zonesInstall,
    currentAvailabilityZoneId := setupZoneId inpInstall,
    HasSynced := true }

theorem C10_zone_lookup_amended_witness :
    (∃ zone, eInstall.Zones eInstall.currentAvailabilityZoneId = some zone ∧
      zone.CIDRs ≠ []) ∧
    (Zoneawareness.ServeDNS ePlug mZero msgExample).isSome = true ∧
    Zoneawareness.ServeDNS eNoZone mZero msgOneA = none :=
  ⟨C10_zone_lookup_amended.1 parseCIDRv4 inpInstall eInstall rfl,
   C10_zone_lookup_amended.2.1 ePlug mZero msgExample (Zone.mk [net10_0_0_0_24]) (by decide),
   C10_zone_lookup_amended.2.2 eNoZone mZero msgOneA rfl rfl (by decide)
     ⟨RR.a 167772161, by decide, by decide⟩⟩
